import Mathlib

/-
Shallow embedding of the cruise card-game core (src/game.rs, src/main.rs).
Machine integers (usize/u32) are modelled as Nat: the source only subtracts
under explicit guards, and additions cannot overflow in the modelled runs.
-/

set_option maxRecDepth 4096

/-- Card variant, src/game.rs lines 58-63. -/
inductive Card where
  | rock
  | paper
  | scissors
deriving DecidableEq

/-- Cyclic comparator, src/game.rs lines 66-78: none on tie, else the index
(0 = left, 1 = right) of the winner. -/
def Card.compare : Card → Card → Option Nat
  | .rock, .rock => none
  | .rock, .paper => some 1
  | .rock, .scissors => some 0
  | .paper, .rock => some 0
  | .paper, .paper => none
  | .paper, .scissors => some 1
  | .scissors, .rock => some 1
  | .scissors, .paper => some 0
  | .scissors, .scissors => none

/-- Inventory record, src/game.rs lines 91-105. -/
structure Inventory where
  star : Nat
  coin : Nat
  rock : Nat
  paper : Nat
  scissors : Nat
deriving DecidableEq

/-- src/game.rs lines 218-220. -/
def Inventory.num_cards (i : Inventory) : Nat :=
  i.rock + i.paper + i.scissors

/-- src/game.rs lines 222-224. -/
def Inventory.is_alive (i : Inventory) : Bool :=
  decide (0 < i.star)

/-- src/game.rs lines 226-228. -/
def Inventory.is_safe (i : Inventory) : Bool :=
  decide (3 ≤ i.star ∧ i.num_cards = 0)

/-- src/game.rs lines 230-232. -/
def Inventory.can_duel (i : Inventory) : Bool :=
  decide (0 < i.num_cards)

/-- Player timer newtype, src/game.rs line 111. -/
structure PlayerTimer where
  val : Nat
deriving DecidableEq

/-- src/game.rs lines 114-116. -/
def PlayerTimer.time_up (t : PlayerTimer) : Bool :=
  decide (t.val = 0)

/-- src/game.rs lines 118-123: saturating decrement via the zero match arm. -/
def PlayerTimer.decrease (t : PlayerTimer) : PlayerTimer :=
  match t.val with
  | 0 => ⟨0⟩
  | n + 1 => ⟨n⟩

/-- Trade record, src/game.rs lines 134-141. -/
structure Trade where
  star : Nat
  coin : Nat
  rock : Nat
  paper : Nat
  scissors : Nat
deriving DecidableEq

/-- src/game.rs lines 144-153. The Rust function asserts `inventory.star > 0`;
theorems about it carry that as a hypothesis. Nat subtraction makes the
`inv.star - 1` total here. -/
def Trade.normalize (t : Trade) (inv : Inventory) : Trade :=
  ⟨min t.star (inv.star - 1), min t.coin inv.coin, min t.rock inv.rock,
    min t.paper inv.paper, min t.scissors inv.scissors⟩

/-- src/game.rs lines 156-168: each constructor carries (have, want). -/
inductive TradeError where
  | star : Nat → Nat → TradeError
  | coin : Nat → Nat → TradeError
  | rock : Nat → Nat → TradeError
  | paper : Nat → Nat → TradeError
  | scissors : Nat → Nat → TradeError
deriving DecidableEq

/-- Stake record, src/game.rs lines 170-176. -/
structure Stake where
  star : Nat
  coin : Nat
deriving DecidableEq

/-- src/game.rs lines 178-186. -/
def Stake.normalize (s : Stake) : Stake :=
  ⟨max s.star 1, s.coin⟩

/-- Pointwise addition, src/game.rs lines 188-197. -/
def Stake.add (a b : Stake) : Stake :=
  ⟨a.star + b.star, a.coin + b.coin⟩

/-- src/game.rs lines 199-205. -/
inductive StakeError where
  | star : Nat → Nat → StakeError
  | coin : Nat → Nat → StakeError
deriving DecidableEq

/-- src/game.rs lines 207-215: no payload beyond the card kind. -/
inductive DuelError where
  | rock
  | paper
  | scissors
deriving DecidableEq

/-- src/game.rs lines 234-249: guards evaluated star, coin, rock, paper,
scissors, in that order. -/
def Inventory.split_trade (x : Inventory) (y : Trade) : Except TradeError Inventory :=
  if x.star < y.star then .error (.star x.star y.star)
  else if x.coin < y.coin then .error (.coin x.coin y.coin)
  else if x.rock < y.rock then .error (.rock x.rock y.rock)
  else if x.paper < y.paper then .error (.paper x.paper y.paper)
  else if x.scissors < y.scissors then .error (.scissors x.scissors y.scissors)
  else .ok ⟨x.star - y.star, x.coin - y.coin, x.rock - y.rock,
    x.paper - y.paper, x.scissors - y.scissors⟩

/-- src/game.rs lines 251-257. -/
def Inventory.apply_trade (x : Inventory) (y : Trade) : Inventory :=
  ⟨x.star + y.star, x.coin + y.coin, x.rock + y.rock, x.paper + y.paper,
    x.scissors + y.scissors⟩

/-- src/game.rs lines 259-269: checks star then coin, keeps the card fields. -/
def Inventory.split_stake (x : Inventory) (y : Stake) : Except StakeError Inventory :=
  if x.star < y.star then .error (.star x.star y.star)
  else if x.coin < y.coin then .error (.coin x.coin y.coin)
  else .ok ⟨x.star - y.star, x.coin - y.coin, x.rock, x.paper, x.scissors⟩

/-- src/game.rs lines 271-274. -/
def Inventory.apply_stake (x : Inventory) (y : Stake) : Inventory :=
  ⟨x.star + y.star, x.coin + y.coin, x.rock, x.paper, x.scissors⟩

/-- src/game.rs lines 276-294: removes exactly one of the named card. -/
def Inventory.split_duel (x : Inventory) (c : Card) : Except DuelError Inventory :=
  match c with
  | .rock =>
    if x.rock = 0 then .error .rock
    else .ok ⟨x.star, x.coin, x.rock - 1, x.paper, x.scissors⟩
  | .paper =>
    if x.paper = 0 then .error .paper
    else .ok ⟨x.star, x.coin, x.rock, x.paper - 1, x.scissors⟩
  | .scissors =>
    if x.scissors = 0 then .error .scissors
    else .ok ⟨x.star, x.coin, x.rock, x.paper, x.scissors - 1⟩

/-- Tunable constant, src/game.rs line 24. -/
def MIN_MATCH_PLAYERS : Nat := 2

/-- Tunable constant, src/game.rs line 26. -/
def NUM_CHAT_ROUNDS : Nat := 4

/-- Tunable constant, src/game.rs line 27. -/
def MAX_TRAIL_ROUNDS : Nat := 3

/-- One row of the matchmaking query (entity id, inventory, timer),
src/game.rs lines 336-344. -/
structure PlayerRow where
  entity : Nat
  inventory : Inventory
  timer : PlayerTimer
deriving DecidableEq

/-- Total card count over all players, src/game.rs lines 372-377. -/
def totalCards (players : List PlayerRow) : Nat :=
  players.foldl
    (fun acc p => acc + p.inventory.rock + p.inventory.paper + p.inventory.scissors) 0

/-- Membership of an entity in any live table, src/game.rs lines 385-393
(concat of all table pairs, then contains). -/
def onAnyTable (tables : List (Nat × Nat)) (e : Nat) : Bool :=
  tables.any (fun t => t.1 == e || t.2 == e)

/-- The candidate filter chain of src/game.rs lines 383-397: not on a table,
alive, not safe, not timed up. -/
def eligible (tables : List (Nat × Nat)) (p : PlayerRow) : Bool :=
  !onAnyTable tables p.entity && p.inventory.is_alive &&
    !p.inventory.is_safe && !p.timer.time_up

/-- Consecutive pairing of the shuffled candidates (itertools tuples, the odd
leftover is dropped), src/game.rs lines 405-409. -/
def pairup : List PlayerRow → List (Nat × Nat)
  | x :: y :: rest => (x.entity, y.entity) :: pairup rest
  | _ => []

/-- The matchmaker system, src/game.rs lines 371-410. The random shuffle is a
parameter; every concrete run instantiates it with some permutation. Output
is the list of freshly spawned tables. -/
def matchPlayers (shuffle : List PlayerRow → List PlayerRow)
    (players : List PlayerRow) (tables : List (Nat × Nat)) : List (Nat × Nat) :=
  if totalCards players < 2 then []
  else
    let cands := players.filter (eligible tables)
    if cands.length < MIN_MATCH_PLAYERS then []
    else pairup (shuffle cands)

/-- Public aggregate, src/game.rs lines 321-328. -/
structure PublicState where
  player : Nat
  rock : Nat
  paper : Nat
  scissors : Nat
deriving DecidableEq

/-- The per-tick aggregator, src/game.rs lines 360-368: starts from the
default (all zero) state, folds every inventory of the Player query (no
marker filter), then sets the player count to the query length. -/
def updatePublicState (invs : List Inventory) : PublicState :=
  let s := invs.foldl
    (fun st i => ⟨st.player, st.rock + i.rock, st.paper + i.paper, st.scissors + i.scissors⟩)
    (⟨0, 0, 0, 0⟩ : PublicState)
  ⟨invs.length, s.rock, s.paper, s.scissors⟩

/-- Modelled from the spec, for comparison with `updatePublicState`: the spec
says the aggregate is "recomputed every tick by summing over live-or-safe
players". -/
def publicStateSpec (invs : List Inventory) : PublicState :=
  let l := invs.filter (fun i => i.is_alive || i.is_safe)
  ⟨l.length, (l.map Inventory.rock).sum, (l.map Inventory.paper).sum,
    (l.map Inventory.scissors).sum⟩

/-- The poller applied to one resolved table, src/game.rs lines 474-497: on Ok
the two inventories are written back and each timer decremented; on Err only a
log is emitted; the table entity is despawned in both cases (the Bool). Both
players exist throughout a run (players are never despawned). -/
def pollDuel (result : Except String (Inventory × Inventory))
    (x y : Inventory × PlayerTimer) :
    (Inventory × PlayerTimer) × (Inventory × PlayerTimer) × Bool :=
  match result with
  | .ok (m, n) => ((m, x.2.decrease), (n, y.2.decrease), true)
  | .error _ => (x, y, true)

namespace MainSrc

/-- Inventory of src/main.rs lines 12-20 (u32 fields modelled as Nat). -/
structure Inventory where
  star : Nat
  coin : Nat
  rock : Nat
  paper : Nat
  scissors : Nat
deriving DecidableEq

/-- Stake of src/main.rs lines 22-29. -/
structure Stake where
  star : Nat
  coin : Nat
  rock : Nat
  paper : Nat
  scissors : Nat
deriving DecidableEq

/-- src/main.rs lines 45-57: each constructor carries (have, want). -/
inductive StakeError where
  | star : Nat → Nat → StakeError
  | coin : Nat → Nat → StakeError
  | rock : Nat → Nat → StakeError
  | paper : Nat → Nat → StakeError
  | scissors : Nat → Nat → StakeError
deriving DecidableEq

/-- src/main.rs lines 60-75, transcribed exactly: the coin, rock, paper and
scissors error arms pass `(x.star, y.star)` rather than the amounts of the
failing resource. -/
def Inventory.take (x : Inventory) (y : Stake) : Except StakeError Inventory :=
  if x.star < y.star then .error (.star x.star y.star)
  else if x.coin < y.coin then .error (.coin x.star y.star)
  else if x.rock < y.rock then .error (.rock x.star y.star)
  else if x.paper < y.paper then .error (.paper x.star y.star)
  else if x.scissors < y.scissors then .error (.scissors x.star y.star)
  else .ok ⟨x.star - y.star, x.coin - y.coin, x.rock - y.rock,
    x.paper - y.paper, x.scissors - y.scissors⟩

end MainSrc

/-- Chat roles, src/game.rs lines 543-551. -/
inductive Role where
  | none
  | system (entity : Nat)
  | transparent (entity : Nat)
  | assistant (entity : Nat)
  | actor (entity : Nat) (name : String)
deriving DecidableEq

/-- Chat record, src/game.rs lines 581-590 (the uid is a plain Nat here; record
identity plays no part in the verified claims). -/
structure ChatRecord where
  id : Nat
  role : Role
  content : String
deriving DecidableEq

/-- The history filter closure of src/game.rs lines 767-776: keeps a record
unless its role is Assistant(e) with e different from the observing player's
entity. -/
def observe (entity : Nat) (history : List ChatRecord) : List ChatRecord :=
  history.filter fun x =>
    match x.role with
    | Role.assistant e => e == entity
    | _ => true

/-
An actor is scripted by pure response functions: one value per invocation,
indexed by the round or retry attempt and given the history argument the
negotiation passes. Quantifying over scripts covers every sequence of actor
responses the task accepts. `notify`, `feedback_error`, `feedback_trade` and
`feedback_duel` return unit and touch only actor-internal state, so they have
no counterpart here.
-/

/-- A pure actor script for one duel task. -/
structure Script where
  chatTrade : Nat → List ChatRecord → List ChatRecord
  trade : Nat → List ChatRecord → Trade
  acceptTrade : List ChatRecord → Trade → Trade → Bool
  chatDuel : Nat → List ChatRecord → List ChatRecord
  bet : Nat → List ChatRecord → Stake
  acceptDuel : Nat → List ChatRecord → Option Card

/-- One chat stage (steps 2 and 5 of src/game.rs, lines 778-790 and 902-914):
each round runs actor 0 on `observe e0 history` then actor 1 on
`observe e1 history`, appending the returned records. `round` is the current
round index, `fuel` the rounds left. -/
def chatRounds (c0 c1 : Nat → List ChatRecord → List ChatRecord) (e0 e1 : Nat)
    (round fuel : Nat) (history : List ChatRecord) : List ChatRecord :=
  match fuel with
  | 0 => history
  | f + 1 =>
    let h0 := observe e0 history
    let history := history ++ c0 (round * 2) h0
    let h1 := observe e1 history
    let history := history ++ c1 (round * 2 + 1) h1
    chatRounds c0 c1 e0 e1 (round + 1) f history

/-- The per-actor trade retry loop, src/game.rs lines 795-816 and 817-838:
attempt k asks the script for a trade and validates it with `split_trade`; on
error the actor gets feedback and the loop retries; the Rust `round` counter
admits `MAX_TRAIL_ROUNDS + 1` attempts, here the initial `fuel`. -/
def retryTrade (inv : Inventory) (f : Nat → Trade) (k fuel : Nat) :
    Option (Trade × Inventory) :=
  match fuel with
  | 0 => none
  | fuel + 1 =>
    match inv.split_trade (f k) with
    | .ok inv' => some (f k, inv')
    | .error _ => retryTrade inv f (k + 1) fuel

/-- The per-actor bet retry loop, src/game.rs lines 919-940 and 941-962, same
shape as `retryTrade` with `split_stake`. -/
def retryBet (inv : Inventory) (f : Nat → Stake) (k fuel : Nat) :
    Option (Stake × Inventory) :=
  match fuel with
  | 0 => none
  | fuel + 1 =>
    match inv.split_stake (f k) with
    | .ok inv' => some (f k, inv')
    | .error _ => retryBet inv f (k + 1) fuel

/-- The duel agreement loop, src/game.rs lines 974-1026: attempt k asks both
scripts for an optional card. If both answer, both cards are split from the
inventories; a failing split sends feedback and retries the whole pair without
committing either side. If either abstains the loop ends at once with the
inventories untouched. Running out of attempts aborts the task. -/
def retryDuel (inv0 inv1 : Inventory) (g0 g1 : Nat → Option Card)
    (k fuel : Nat) :
    Except String ((Option Card × Option Card) × Inventory × Inventory) :=
  match fuel with
  | 0 => .error "duel failed too many times"
  | fuel + 1 =>
    match g0 k, g1 k with
    | some c0, some c1 =>
      match inv0.split_duel c0 with
      | .error _ => retryDuel inv0 inv1 g0 g1 (k + 1) fuel
      | .ok i0 =>
        match inv1.split_duel c1 with
        | .error _ => retryDuel inv0 inv1 g0 g1 (k + 1) fuel
        | .ok i1 => .ok ((some c0, some c1), i0, i1)
    | c0, c1 => .ok ((c0, c1), inv0, inv1)

/-- The mutual-agreement outcome of step 4, src/game.rs lines 850-892: when
both actors accept, the trades swap hands (each receives the other's escrow);
otherwise each side takes its own escrow back. -/
def tradeOutcome (t0 t1 : Trade) (x0 x1 : Inventory) (u0 u1 : Bool) :
    Inventory × Inventory :=
  if u0 && u1 then (x0.apply_trade t1, x1.apply_trade t0)
  else (x0.apply_trade t0, x1.apply_trade t1)

/-- The settlement match, src/game.rs lines 1028-1058: with two cards, the
comparator picks the pot winner (index 0 or 1) or returns each stake on a tie;
with an abstention each player gets their own stake back. -/
def settle (cards : Option Card × Option Card) (s0 s1 : Stake)
    (inv0 inv1 : Inventory) : Inventory × Inventory :=
  match cards with
  | (some c0, some c1) =>
    match c0.compare c1 with
    | some 0 => (inv0.apply_stake (s0.add s1), inv1)
    | some _ => (inv0, inv1.apply_stake (s0.add s1))
    | none => (inv0.apply_stake s0, inv1.apply_stake s1)
  | _ => (inv0.apply_stake s0, inv1.apply_stake s1)

/-- The duel task, src/game.rs lines 753-1061, for two scripted actors with
entities e0, e1 and snapshot inventories inv0, inv1.

Stage by stage: trade-stage chat; both trade retry loops (an exhausted loop
aborts); the mutual agreement — on (true, true) the trades are swapped,
otherwise each side takes its own escrow back; early Ok return when either
side has no card left; duel-stage chat; both bet retry loops; the duel
agreement loop; settlement.

Note the bet stage: actor 1's history argument is `observe e0 history`,
mirroring `let h1 = observe(&p0, &history)` at src/game.rs line 949 (the
trade stage's counterpart at line 825 uses p1). -/
def duel (s0 s1 : Script) (e0 e1 : Nat) (inv0 inv1 : Inventory) :
    Except String (Inventory × Inventory) :=
  let history := chatRounds s0.chatTrade s1.chatTrade e0 e1 0 NUM_CHAT_ROUNDS []
  match retryTrade inv0 (fun k => s0.trade k (observe e0 history)) 0 (MAX_TRAIL_ROUNDS + 1),
        retryTrade inv1 (fun k => s1.trade k (observe e1 history)) 0 (MAX_TRAIL_ROUNDS + 1) with
  | some (t0, x0), some (t1, x1) =>
    let p := tradeOutcome t0 t1 x0 x1 (s0.acceptTrade history t0 t1)
      (s1.acceptTrade history t1 t0)
    if !p.1.can_duel || !p.2.can_duel then .ok p
    else
      let history := chatRounds s0.chatDuel s1.chatDuel e0 e1 0 NUM_CHAT_ROUNDS history
      match retryBet p.1 (fun k => s0.bet k (observe e0 history)) 0 (MAX_TRAIL_ROUNDS + 1),
            retryBet p.2 (fun k => s1.bet k (observe e0 history)) 0 (MAX_TRAIL_ROUNDS + 1) with
      | some (sk0, y0), some (sk1, y1) =>
        match retryDuel y0 y1 (fun k => s0.acceptDuel k history)
            (fun k => s1.acceptDuel k history) 0 (MAX_TRAIL_ROUNDS + 1) with
        | .error e => .error e
        | .ok (cards, z0, z1) => .ok (settle cards sk0 sk1 z0 z1)
      | _, _ => .error "bet failed too many times"
  | _, _ => .error "trade failed too many times"

/-- Card count of one kind in an inventory (accounting vocabulary for the
conservation statements). -/
def countCard (k : Card) (i : Inventory) : Nat :=
  match k with
  | .rock => i.rock
  | .paper => i.paper
  | .scissors => i.scissors

/-- 1 when the optional played card is of kind k, else 0. -/
def cardHit (k : Card) : Option Card → Nat
  | some c => if c = k then 1 else 0
  | none => 0

theorem split_trade_spec (inv : Inventory) (t : Trade) (inv' : Inventory)
    (h : inv.split_trade t = .ok inv') :
    t.star ≤ inv.star ∧ t.coin ≤ inv.coin ∧ t.rock ≤ inv.rock ∧
    t.paper ≤ inv.paper ∧ t.scissors ≤ inv.scissors ∧
    inv' = ⟨inv.star - t.star, inv.coin - t.coin, inv.rock - t.rock,
      inv.paper - t.paper, inv.scissors - t.scissors⟩ := by
  simp only [Inventory.split_trade] at h
  repeat' split at h
  all_goals simp_all

theorem split_stake_spec (inv : Inventory) (s : Stake) (inv' : Inventory)
    (h : inv.split_stake s = .ok inv') :
    s.star ≤ inv.star ∧ s.coin ≤ inv.coin ∧
    inv' = ⟨inv.star - s.star, inv.coin - s.coin, inv.rock, inv.paper,
      inv.scissors⟩ := by
  simp only [Inventory.split_stake] at h
  repeat' split at h
  all_goals simp_all

theorem split_duel_spec (inv : Inventory) (c : Card) (inv' : Inventory)
    (h : inv.split_duel c = .ok inv') :
    inv'.star = inv.star ∧ inv'.coin = inv.coin ∧
    ∀ k : Card, countCard k inv' + cardHit k (some c) = countCard k inv := by
  cases c with
  | rock =>
    simp only [Inventory.split_duel] at h
    split at h
    · exact absurd h (by simp)
    · injection h with h
      subst h
      refine ⟨rfl, rfl, fun k => ?_⟩
      cases k <;> simp [countCard, cardHit] <;> omega
  | paper =>
    simp only [Inventory.split_duel] at h
    split at h
    · exact absurd h (by simp)
    · injection h with h
      subst h
      refine ⟨rfl, rfl, fun k => ?_⟩
      cases k <;> simp [countCard, cardHit] <;> omega
  | scissors =>
    simp only [Inventory.split_duel] at h
    split at h
    · exact absurd h (by simp)
    · injection h with h
      subst h
      refine ⟨rfl, rfl, fun k => ?_⟩
      cases k <;> simp [countCard, cardHit] <;> omega

theorem retryTrade_ok (inv : Inventory) (f : Nat → Trade) (t : Trade)
    (inv' : Inventory) : ∀ k fuel,
    retryTrade inv f k fuel = some (t, inv') → inv.split_trade t = .ok inv'
  | _, 0, h => by simp [retryTrade] at h
  | k, fuel + 1, h => by
    rw [retryTrade] at h
    split at h
    · simp_all
    · exact retryTrade_ok inv f t inv' (k + 1) fuel h

theorem retryBet_ok (inv : Inventory) (f : Nat → Stake) (s : Stake)
    (inv' : Inventory) : ∀ k fuel,
    retryBet inv f k fuel = some (s, inv') → inv.split_stake s = .ok inv'
  | _, 0, h => by simp [retryBet] at h
  | k, fuel + 1, h => by
    rw [retryBet] at h
    split at h
    · simp_all
    · exact retryBet_ok inv f s inv' (k + 1) fuel h

theorem retryDuel_ok (inv0 inv1 : Inventory) (g0 g1 : Nat → Option Card)
    (oc0 oc1 : Option Card) (j0 j1 : Inventory) : ∀ k fuel,
    retryDuel inv0 inv1 g0 g1 k fuel = .ok ((oc0, oc1), j0, j1) →
    j0.star = inv0.star ∧ j0.coin = inv0.coin ∧
    j1.star = inv1.star ∧ j1.coin = inv1.coin ∧
    ((oc0 = none ∨ oc1 = none) → j0 = inv0 ∧ j1 = inv1) ∧
    ∃ d0 d1 : Option Card,
      (∀ k : Card, countCard k j0 + cardHit k d0 = countCard k inv0) ∧
      (∀ k : Card, countCard k j1 + cardHit k d1 = countCard k inv1)
  | _, 0, h => by simp [retryDuel] at h
  | k, fuel + 1, h => by
    rw [retryDuel] at h
    split at h
    · rename_i u0 u1 c0 c1 hg0 hg1
      split at h
      · exact retryDuel_ok inv0 inv1 g0 g1 oc0 oc1 j0 j1 (k + 1) fuel h
      · rename_i i0 hs0
        split at h
        · exact retryDuel_ok inv0 inv1 g0 g1 oc0 oc1 j0 j1 (k + 1) fuel h
        · rename_i i1 hs1
          simp only [Except.ok.injEq, Prod.mk.injEq] at h
          obtain ⟨⟨hc0, hc1⟩, hj0, hj1⟩ := h
          subst hc0; subst hc1; subst hj0; subst hj1
          obtain ⟨e0star, e0coin, e0cards⟩ := split_duel_spec inv0 c0 i0 hs0
          obtain ⟨e1star, e1coin, e1cards⟩ := split_duel_spec inv1 c1 i1 hs1
          refine ⟨e0star, e0coin, e1star, e1coin, ?_, some c0, some c1, e0cards, e1cards⟩
          rintro (hx | hx) <;> simp at hx
    · rename_i c0 c1 hne
      simp only [Except.ok.injEq, Prod.mk.injEq] at h
      obtain ⟨⟨hc0, hc1⟩, hj0, hj1⟩ := h
      subst hj0; subst hj1
      exact ⟨rfl, rfl, rfl, rfl, fun _ => ⟨rfl, rfl⟩, none, none,
        fun k => by simp [cardHit], fun k => by simp [cardHit]⟩

theorem settle_sums (cards : Option Card × Option Card) (s0 s1 : Stake)
    (i0 i1 : Inventory) :
    (settle cards s0 s1 i0 i1).1.star + (settle cards s0 s1 i0 i1).2.star
      = i0.star + i1.star + s0.star + s1.star ∧
    (settle cards s0 s1 i0 i1).1.coin + (settle cards s0 s1 i0 i1).2.coin
      = i0.coin + i1.coin + s0.coin + s1.coin ∧
    (∀ k : Card, countCard k (settle cards s0 s1 i0 i1).1 = countCard k i0) ∧
    (∀ k : Card, countCard k (settle cards s0 s1 i0 i1).2 = countCard k i1) := by
  obtain ⟨oc0, oc1⟩ := cards
  have hk : ∀ j : Inventory, ∀ s : Stake, ∀ k : Card,
      countCard k (j.apply_stake s) = countCard k j := by
    intro j s k; cases k <;> rfl
  cases oc0 with
  | none =>
    cases oc1 <;>
      exact ⟨by simp [settle, Inventory.apply_stake]; omega,
        by simp [settle, Inventory.apply_stake]; omega,
        fun k => hk i0 s0 k, fun k => hk i1 s1 k⟩
  | some c0 =>
    cases oc1 with
    | none =>
      exact ⟨by simp [settle, Inventory.apply_stake]; omega,
        by simp [settle, Inventory.apply_stake]; omega,
        fun k => hk i0 s0 k, fun k => hk i1 s1 k⟩
    | some c1 =>
      cases c0 <;> cases c1 <;>
        refine ⟨?_, ?_, fun k => ?_, fun k => ?_⟩ <;>
        simp [settle, Card.compare, Inventory.apply_stake, Stake.add, countCard] <;>
        omega

theorem tradeOutcome_conserves (t0 t1 : Trade) (inv0 inv1 x0 x1 : Inventory)
    (h0 : inv0.split_trade t0 = .ok x0) (h1 : inv1.split_trade t1 = .ok x1)
    (u0 u1 : Bool) :
    (tradeOutcome t0 t1 x0 x1 u0 u1).1.star + (tradeOutcome t0 t1 x0 x1 u0 u1).2.star
      = inv0.star + inv1.star ∧
    (tradeOutcome t0 t1 x0 x1 u0 u1).1.coin + (tradeOutcome t0 t1 x0 x1 u0 u1).2.coin
      = inv0.coin + inv1.coin ∧
    ∀ k : Card,
      countCard k (tradeOutcome t0 t1 x0 x1 u0 u1).1 +
        countCard k (tradeOutcome t0 t1 x0 x1 u0 u1).2 =
      countCard k inv0 + countCard k inv1 := by
  obtain ⟨a1, a2, a3, a4, a5, he0⟩ := split_trade_spec inv0 t0 x0 h0
  obtain ⟨b1, b2, b3, b4, b5, he1⟩ := split_trade_spec inv1 t1 x1 h1
  subst he0; subst he1
  cases u0 <;> cases u1 <;>
    refine ⟨?_, ?_, fun k => ?_⟩ <;>
    first
      | (simp [tradeOutcome, Inventory.apply_trade]; omega)
      | (cases k <;> simp [tradeOutcome, Inventory.apply_trade, countCard] <;> omega)

theorem split_stake_sums (inv : Inventory) (s : Stake) (inv' : Inventory)
    (h : inv.split_stake s = .ok inv') :
    inv'.star + s.star = inv.star ∧ inv'.coin + s.coin = inv.coin ∧
    ∀ k : Card, countCard k inv' = countCard k inv := by
  obtain ⟨h1, h2, he⟩ := split_stake_spec inv s inv' h
  subst he
  refine ⟨by simp only []; omega, by simp only []; omega, fun k => ?_⟩
  cases k <;> rfl

theorem decrease_le (t : PlayerTimer) : t.decrease.val ≤ t.val := by
  obtain ⟨v⟩ := t
  cases v <;> simp [PlayerTimer.decrease]

theorem publicFold_eq (invs : List Inventory) (st : PublicState) :
    invs.foldl
      (fun st i => ⟨st.player, st.rock + i.rock, st.paper + i.paper,
        st.scissors + i.scissors⟩) st =
    ⟨st.player, st.rock + (invs.map Inventory.rock).sum,
      st.paper + (invs.map Inventory.paper).sum,
      st.scissors + (invs.map Inventory.scissors).sum⟩ := by
  induction invs generalizing st with
  | nil => simp
  | cons a l ih =>
    simp only [List.foldl_cons, List.map_cons, List.sum_cons, ih]
    simp only [PublicState.mk.injEq]
    exact ⟨trivial, by omega, by omega, by omega⟩

theorem pairup_mem : ∀ (l : List PlayerRow) (a b : Nat), (a, b) ∈ pairup l →
    (∃ x ∈ l, x.entity = a) ∧ ∃ x ∈ l, x.entity = b
  | [], a, b, h => by simp [pairup] at h
  | [x], a, b, h => by simp [pairup] at h
  | x :: y :: rest, a, b, h => by
    rw [pairup] at h
    rcases List.mem_cons.mp h with heq | hmem
    · obtain ⟨h1, h2⟩ := Prod.mk.injEq .. ▸ heq
      exact ⟨⟨x, by simp, h1.symm⟩, ⟨y, by simp, h2.symm⟩⟩
    · obtain ⟨⟨p, hp, hpa⟩, ⟨q, hq, hqb⟩⟩ := pairup_mem rest a b hmem
      exact ⟨⟨p, by simp [hp], hpa⟩, ⟨q, by simp [hq], hqb⟩⟩

theorem observe_no_foreign_assistant (entity : Nat) (h : List ChatRecord)
    (r : ChatRecord) (hr : r ∈ observe entity h) (e : Nat)
    (he : r.role = Role.assistant e) : e = entity := by
  obtain ⟨-, hkeep⟩ := List.mem_filter.mp hr
  rw [he] at hkeep
  simpa using hkeep

/-- C9: a successful `split_trade` followed by `apply_trade` with the same
trade restores the inventory exactly; the same round-trip holds for
`split_stake` followed by `apply_stake`. -/
theorem split_apply_roundtrip :
    (∀ (inv : Inventory) (t : Trade) (inv' : Inventory),
      inv.split_trade t = .ok inv' → inv'.apply_trade t = inv) ∧
    (∀ (inv : Inventory) (s : Stake) (inv' : Inventory),
      inv.split_stake s = .ok inv' → inv'.apply_stake s = inv) := by
  constructor
  · intro inv t inv' h
    obtain ⟨h1, h2, h3, h4, h5, he⟩ := split_trade_spec inv t inv' h
    subst he
    obtain ⟨a, b, c, d, e⟩ := inv
    simp only [Inventory.apply_trade, Inventory.mk.injEq] at h1 h2 h3 h4 h5 ⊢
    refine ⟨by omega, by omega, by omega, by omega, by omega⟩
  · intro inv s inv' h
    obtain ⟨h1, h2, he⟩ := split_stake_spec inv s inv' h
    subst he
    obtain ⟨a, b, c, d, e⟩ := inv
    simp only [Inventory.apply_stake, Inventory.mk.injEq] at h1 h2 ⊢
    exact ⟨by omega, by omega, trivial, trivial, trivial⟩

theorem split_apply_roundtrip_witness :
    Inventory.apply_trade ⟨2, 8, 4, 3, 4⟩ ⟨1, 2, 0, 1, 0⟩ = ⟨3, 10, 4, 4, 4⟩ ∧
    Inventory.apply_stake ⟨2, 9, 4, 4, 4⟩ ⟨1, 1⟩ = ⟨3, 10, 4, 4, 4⟩ :=
  ⟨split_apply_roundtrip.1 ⟨3, 10, 4, 4, 4⟩ ⟨1, 2, 0, 1, 0⟩ ⟨2, 8, 4, 3, 4⟩ rfl,
    split_apply_roundtrip.2 ⟨3, 10, 4, 4, 4⟩ ⟨1, 1⟩ ⟨2, 9, 4, 4, 4⟩ rfl⟩

/-- C10: `PlayerTimer.decrease` is total and saturating: a zero timer stays
zero, a positive timer drops by exactly one, and any number of iterated
decrements never increases the value. -/
theorem timer_decrease_saturating (t : PlayerTimer) (n : Nat) :
    (t.val = 0 → t.decrease.val = 0) ∧
    (0 < t.val → t.decrease.val = t.val - 1) ∧
    (PlayerTimer.decrease^[n] t).val ≤ t.val := by
  refine ⟨?_, ?_, ?_⟩
  · intro h
    obtain ⟨v⟩ := t
    simp only at h
    subst h
    rfl
  · intro h
    obtain ⟨v⟩ := t
    cases v with
    | zero => simp at h
    | succ m => simp [PlayerTimer.decrease]
  · induction n generalizing t with
    | zero => simp
    | succ m ih =>
      rw [Function.iterate_succ_apply]
      exact le_trans (ih t.decrease) (decrease_le t)

theorem timer_decrease_saturating_witness :
    (PlayerTimer.decrease ⟨0⟩).val = 0 ∧
    (PlayerTimer.decrease ⟨3⟩).val = 3 - 1 ∧
    (PlayerTimer.decrease^[5] (⟨3⟩ : PlayerTimer)).val ≤ 3 :=
  ⟨(timer_decrease_saturating ⟨0⟩ 0).1 rfl,
    (timer_decrease_saturating ⟨3⟩ 0).2.1 (by decide),
    (timer_decrease_saturating ⟨3⟩ 5).2.2⟩

/-- C6: evaluating src/main.rs `Inventory::take` at an inventory with 5 stars
and 0 coins and a stake wanting 1 coin: the first insufficient resource is
coin, but the returned error carries the star amounts (5, 0) instead of the
coin pair (0, 1) mandated by the claim. (The error arms of `take` pass
`x.star, y.star` for every resource, contradicting their own message
templates; game.rs `split_trade`/`split_stake` pass the matching amounts.) -/
theorem take_error_payload_cex :
    MainSrc.Inventory.take ⟨5, 0, 0, 0, 0⟩ ⟨0, 1, 0, 0, 0⟩ =
      .error (MainSrc.StakeError.coin 5 0) ∧
    (MainSrc.StakeError.coin 5 0 ≠ MainSrc.StakeError.coin 0 1) :=
  ⟨rfl, by decide⟩

/-- C3 counterexample: a resolved duel task with an Err result leaves both
timers exactly as they were (here 5, not 4): `poll_duel` only decrements on
Ok, while the claim says timers decrement on Err as well. -/
theorem poll_duel_err_timer_cex :
    pollDuel (.error "trade failed too many times")
        (⟨3, 10, 4, 4, 4⟩, ⟨5⟩) (⟨3, 10, 4, 4, 4⟩, ⟨5⟩) =
      ((⟨3, 10, 4, 4, 4⟩, ⟨5⟩), (⟨3, 10, 4, 4, 4⟩, ⟨5⟩), true) ∧
    ((⟨5⟩ : PlayerTimer) ≠ PlayerTimer.decrease ⟨5⟩) :=
  ⟨rfl, by decide⟩

/-- C3 amended: on Ok the poller writes the two inventories back and
decrements each timer by one; on Err it changes neither inventories nor
timers; the table is destroyed in both cases. -/
theorem poll_duel_behavior :
    (∀ (m n : Inventory) (x y : Inventory × PlayerTimer),
      pollDuel (.ok (m, n)) x y = ((m, x.2.decrease), (n, y.2.decrease), true)) ∧
    (∀ (e : String) (x y : Inventory × PlayerTimer),
      pollDuel (.error e) x y = (x, y, true)) :=
  ⟨fun _ _ _ _ => rfl, fun _ _ _ => rfl⟩

/-- C8 counterexample: with one dead player (0 stars, 1 rock card) and one
live player, the aggregator counts 2 players and 2 rock cards; the spec's
live-or-safe sum would give 1 and 1. -/
theorem public_state_dead_player_cex :
    updatePublicState [⟨0, 0, 1, 0, 0⟩, ⟨3, 0, 1, 0, 0⟩] = ⟨2, 2, 0, 0⟩ ∧
    publicStateSpec [⟨0, 0, 1, 0, 0⟩, ⟨3, 0, 1, 0, 0⟩] = ⟨1, 1, 0, 0⟩ ∧
    updatePublicState [⟨0, 0, 1, 0, 0⟩, ⟨3, 0, 1, 0, 0⟩] ≠
      publicStateSpec [⟨0, 0, 1, 0, 0⟩, ⟨3, 0, 1, 0, 0⟩] := by
  refine ⟨rfl, rfl, ?_⟩
  decide

/-- C8 amended: the per-tick aggregate equals the player count and per-kind
card sums over ALL players of the Player query, with no live-or-safe filter
(dead and safe players are included). -/
theorem update_public_state_sums_all (invs : List Inventory) :
    updatePublicState invs =
      ⟨invs.length, (invs.map Inventory.rock).sum,
        (invs.map Inventory.paper).sum, (invs.map Inventory.scissors).sum⟩ := by
  simp [updatePublicState, publicFold_eq]

/-- C7: for any shuffle that only permutes its input, every entity the
matchmaker places on a fresh table belongs to a player row that is on no
existing table, alive, not safe and not timed up; and no table at all is
created when the global card count is below 2 or fewer than
MIN_MATCH_PLAYERS candidates pass the filter. -/
theorem match_players_eligibility
    (shuffle : List PlayerRow → List PlayerRow) (players : List PlayerRow)
    (tables : List (Nat × Nat))
    (hs : ∀ (l : List PlayerRow) (x : PlayerRow), x ∈ shuffle l → x ∈ l) :
    (∀ a b, (a, b) ∈ matchPlayers shuffle players tables →
      (∃ p ∈ players, p.entity = a ∧ onAnyTable tables p.entity = false ∧
        p.inventory.is_alive = true ∧ p.inventory.is_safe = false ∧
        p.timer.time_up = false) ∧
      (∃ p ∈ players, p.entity = b ∧ onAnyTable tables p.entity = false ∧
        p.inventory.is_alive = true ∧ p.inventory.is_safe = false ∧
        p.timer.time_up = false)) ∧
    (totalCards players < 2 → matchPlayers shuffle players tables = []) ∧
    ((players.filter (eligible tables)).length < MIN_MATCH_PLAYERS →
      matchPlayers shuffle players tables = []) := by
  refine ⟨?_, ?_, ?_⟩
  · intro a b hmem
    simp only [matchPlayers] at hmem
    split at hmem
    · simp at hmem
    · split at hmem
      · simp at hmem
      · obtain ⟨⟨p, hp, hpa⟩, ⟨q, hq, hqb⟩⟩ := pairup_mem _ a b hmem
        have hp' := hs _ _ hp
        have hq' := hs _ _ hq
        obtain ⟨hpl, hpe⟩ := List.mem_filter.mp hp'
        obtain ⟨hql, hqe⟩ := List.mem_filter.mp hq'
        simp only [eligible, Bool.and_eq_true, Bool.not_eq_true'] at hpe hqe
        exact ⟨⟨p, hpl, hpa, hpe.1.1.1, hpe.1.1.2, hpe.1.2, hpe.2⟩,
          ⟨q, hql, hqb, hqe.1.1.1, hqe.1.1.2, hqe.1.2, hqe.2⟩⟩
  · intro h
    simp [matchPlayers, h]
  · intro h
    simp only [matchPlayers]
    split
    · rfl
    · rfl

theorem match_players_eligibility_witness :
    matchPlayers id ([] : List PlayerRow) ([] : List (Nat × Nat)) = [] :=
  (match_players_eligibility id [] [] (fun _ _ hx => hx)).2.1 (by decide)

/-- C2 amended: the retention property holds of the functions themselves (the
duel's trade stage itself never calls `normalize`): for any inventory with at
least one star, `split_trade` on the normalize-clamped trade always succeeds
and the remaining star count stays at least 1. -/
theorem normalize_split_trade_star_retention (inv : Inventory) (t : Trade)
    (h : 1 ≤ inv.star) :
    inv.split_trade (t.normalize inv) =
      .ok ⟨inv.star - min t.star (inv.star - 1), inv.coin - min t.coin inv.coin,
        inv.rock - min t.rock inv.rock, inv.paper - min t.paper inv.paper,
        inv.scissors - min t.scissors inv.scissors⟩ ∧
    1 ≤ inv.star - min t.star (inv.star - 1) := by
  constructor
  · simp only [Inventory.split_trade, Trade.normalize]
    rw [if_neg (by omega), if_neg (by omega), if_neg (by omega),
      if_neg (by omega), if_neg (by omega)]
  · omega

theorem normalize_split_trade_star_retention_witness :
    Inventory.split_trade ⟨3, 10, 4, 4, 4⟩
        (Trade.normalize ⟨5, 20, 9, 9, 9⟩ ⟨3, 10, 4, 4, 4⟩) =
      .ok ⟨3 - min 5 (3 - 1), 10 - min 20 10, 4 - min 9 4, 4 - min 9 4,
        4 - min 9 4⟩ ∧
    1 ≤ 3 - min 5 (3 - 1) :=
  normalize_split_trade_star_retention ⟨3, 10, 4, 4, 4⟩ ⟨5, 20, 9, 9, 9⟩ (by decide)

/-- The all-zero trade (no goods offered). -/
def tradeZero : Trade := ⟨0, 0, 0, 0, 0⟩

/-- The all-zero stake. -/
def stakeZero : Stake := ⟨0, 0⟩

/-- C2 counterexample script for player 0: declare a trade of two stars from a
two-star inventory and accept. -/
def greedyStarScript : Script :=
  ⟨fun _ _ => [], fun _ _ => ⟨2, 0, 0, 0, 0⟩, fun _ _ _ => true, fun _ _ => [],
    fun _ _ => stakeZero, fun _ _ => none⟩

/-- C2 counterexample script for player 1: trade nothing and accept. -/
def passiveScript : Script :=
  ⟨fun _ _ => [], fun _ _ => tradeZero, fun _ _ _ => true, fun _ _ => [],
    fun _ _ => stakeZero, fun _ _ => none⟩

/-- C2 counterexample: the duel's trade loop feeds the declared trade straight
to `split_trade` with no `normalize` clamp: a player entering the trade stage
with 2 stars and declaring a 2-star trade passes validation with 0 stars kept
in escrow, and after the accepted swap the completed task reports that player
at 0 stars — under the claim the clamp would have left at least 1. -/
theorem trade_no_normalize_cex :
    retryTrade ⟨2, 0, 0, 0, 0⟩ (fun _ => ⟨2, 0, 0, 0, 0⟩) 0 (MAX_TRAIL_ROUNDS + 1) =
      some (⟨2, 0, 0, 0, 0⟩, ⟨0, 0, 0, 0, 0⟩) ∧
    duel greedyStarScript passiveScript 0 1 ⟨2, 0, 0, 0, 0⟩ ⟨1, 0, 0, 0, 0⟩ =
      .ok (⟨0, 0, 0, 0, 0⟩, ⟨3, 0, 0, 0, 0⟩) :=
  ⟨rfl, rfl⟩

/-- The claim's cyclic comparator, transcribed from the spec sentence for
comparison with `Card.compare`: paper beats rock, scissors beats paper, rock
beats scissors. -/
def beatsSpec (a b : Card) : Prop :=
  (a = .paper ∧ b = .rock) ∨ (a = .scissors ∧ b = .paper) ∨
    (a = .rock ∧ b = .scissors)

/-- C4: at settlement, two equal cards return each player's own stake; two
distinct cards give the winner under the cyclic comparator the whole pot
`stake_a + stake_b` and the loser nothing; and when the agreement loop ends
with either side abstaining, the inventories leave the loop untouched (no
card removed) and settlement returns each player's own stake. -/
theorem duel_settlement_correct :
    (∀ (c : Card) (s0 s1 : Stake) (i0 i1 : Inventory),
      settle (some c, some c) s0 s1 i0 i1 =
        (i0.apply_stake s0, i1.apply_stake s1)) ∧
    (∀ (c0 c1 : Card) (s0 s1 : Stake) (i0 i1 : Inventory), beatsSpec c0 c1 →
      settle (some c0, some c1) s0 s1 i0 i1 =
        (i0.apply_stake (s0.add s1), i1)) ∧
    (∀ (c0 c1 : Card) (s0 s1 : Stake) (i0 i1 : Inventory), beatsSpec c1 c0 →
      settle (some c0, some c1) s0 s1 i0 i1 =
        (i0, i1.apply_stake (s0.add s1))) ∧
    (∀ (g0 g1 : Nat → Option Card) (k fuel : Nat) (i0 i1 j0 j1 : Inventory)
      (oc0 oc1 : Option Card),
      retryDuel i0 i1 g0 g1 k fuel = .ok ((oc0, oc1), j0, j1) →
      (oc0 = none ∨ oc1 = none) →
      j0 = i0 ∧ j1 = i1 ∧ ∀ s0 s1 : Stake,
        settle (oc0, oc1) s0 s1 j0 j1 = (j0.apply_stake s0, j1.apply_stake s1)) := by
  refine ⟨?_, ?_, ?_, ?_⟩
  · intro c s0 s1 i0 i1
    cases c <;> rfl
  · rintro c0 c1 s0 s1 i0 i1 (⟨rfl, rfl⟩ | ⟨rfl, rfl⟩ | ⟨rfl, rfl⟩) <;> rfl
  · rintro c0 c1 s0 s1 i0 i1 (⟨rfl, rfl⟩ | ⟨rfl, rfl⟩ | ⟨rfl, rfl⟩) <;> rfl
  · intro g0 g1 k fuel i0 i1 j0 j1 oc0 oc1 hr hnone
    obtain ⟨-, -, -, -, hid, -⟩ :=
      retryDuel_ok i0 i1 g0 g1 oc0 oc1 j0 j1 k fuel hr
    obtain ⟨hj0, hj1⟩ := hid hnone
    refine ⟨hj0, hj1, fun s0 s1 => ?_⟩
    rcases hnone with h | h
    · subst h
      cases oc1 <;> rfl
    · subst h
      cases oc0 <;> rfl

theorem duel_settlement_correct_witness :
    settle (some Card.paper, some Card.rock) ⟨1, 2⟩ ⟨1, 0⟩ ⟨3, 0, 1, 0, 0⟩ ⟨2, 5, 0, 1, 0⟩ =
      (Inventory.apply_stake ⟨3, 0, 1, 0, 0⟩ (Stake.add ⟨1, 2⟩ ⟨1, 0⟩), ⟨2, 5, 0, 1, 0⟩) :=
  duel_settlement_correct.2.1 Card.paper Card.rock ⟨1, 2⟩ ⟨1, 0⟩
    ⟨3, 0, 1, 0, 0⟩ ⟨2, 5, 0, 1, 0⟩ (Or.inl ⟨rfl, rfl⟩)

/-- A private Assistant record addressed to entity 0; the negotiation's
observe filter hides it from every other entity. -/
def leakRecord : ChatRecord := ⟨100, Role.assistant 0, "private advice"⟩

/-- C5 probe script for player 0: emits the private Assistant(0) record in the
first duel-stage chat round, then plays rock. -/
def leakProbeScript0 : Script :=
  ⟨fun _ _ => [], fun _ _ => tradeZero, fun _ _ _ => true,
    fun r _ => if r = 0 then [leakRecord] else [],
    fun _ _ => stakeZero, fun _ _ => some Card.rock⟩

/-- C5 probe script for player 1: bets one coin exactly when its bet-stage
history argument contains an Assistant(0) record, then plays scissors (and
loses the coin to the pot). -/
def leakProbeScript1 : Script :=
  ⟨fun _ _ => [], fun _ _ => tradeZero, fun _ _ _ => true, fun _ _ => [],
    fun _ h => if h.any (fun r => r.role == Role.assistant 0) then ⟨0, 1⟩ else ⟨0, 0⟩,
    fun _ _ => some Card.scissors⟩

/-- C5: the bet invocation on actor 1 receives a history that still contains
the opponent's private Assistant(0) record — the run below ends with player 1
having staked (and lost) the coin its script bets only upon seeing that
record, while the observe filter for entity 1 would have removed it (and for
entity 0 keeps it). This mirrors `observe(&p0, &history)` at src/game.rs
line 949, where the trade stage's counterpart (line 825) uses p1. -/
theorem bet_history_leak :
    duel leakProbeScript0 leakProbeScript1 0 1 ⟨3, 0, 1, 0, 0⟩ ⟨3, 1, 0, 0, 1⟩ =
      .ok (⟨3, 1, 0, 0, 0⟩, ⟨3, 0, 0, 0, 0⟩) ∧
    observe 1 [leakRecord] = [] ∧
    observe 0 [leakRecord] = [leakRecord] :=
  ⟨rfl, rfl, rfl⟩

/-- C1 counterexample script: trade nothing, accept, stake nothing, play the
single rock card. -/
def rockScript : Script :=
  ⟨fun _ _ => [], fun _ _ => tradeZero, fun _ _ _ => true, fun _ _ => [],
    fun _ _ => stakeZero, fun _ _ => some Card.rock⟩

/-- C1 counterexample: both players start with one rock card, both play it;
the task completes Ok but the rock component of the joint inventory drops
from 2 to 0 — the played cards are consumed by `split_duel` and never
returned, so component-wise conservation over the card fields fails. -/
theorem duel_card_conservation_cex :
    duel rockScript rockScript 0 1 ⟨3, 0, 1, 0, 0⟩ ⟨3, 0, 1, 0, 0⟩ =
      .ok (⟨3, 0, 0, 0, 0⟩, ⟨3, 0, 0, 0, 0⟩) ∧
    (⟨3, 0, 0, 0, 0⟩ : Inventory).rock + (⟨3, 0, 0, 0, 0⟩ : Inventory).rock ≠
      (⟨3, 0, 1, 0, 0⟩ : Inventory).rock + (⟨3, 0, 1, 0, 0⟩ : Inventory).rock :=
  ⟨rfl, by decide⟩

/-- C1 amended: for every pair of actor scripts, a duel task that completes
with Ok conserves the star and coin sums exactly, and conserves each card
component up to the at most one card per player consumed by the final
accepted duel round (d0, d1 below; both none when the duel was skipped or
either side abstained). -/
theorem duel_conservation (s0 s1 : Script) (e0 e1 : Nat)
    (inv0 inv1 i0 i1 : Inventory)
    (h : duel s0 s1 e0 e1 inv0 inv1 = .ok (i0, i1)) :
    i0.star + i1.star = inv0.star + inv1.star ∧
    i0.coin + i1.coin = inv0.coin + inv1.coin ∧
    ∃ d0 d1 : Option Card, ∀ k : Card,
      countCard k i0 + countCard k i1 + cardHit k d0 + cardHit k d1 =
        countCard k inv0 + countCard k inv1 := by
  simp only [duel] at h
  split at h
  · rename_i o0 o1 t0 x0 t1 x1 ht0 ht1
    obtain ⟨hstar, hcoin, hcards⟩ := tradeOutcome_conserves t0 t1 inv0 inv1 x0 x1
      (retryTrade_ok _ _ _ _ _ _ ht0) (retryTrade_ok _ _ _ _ _ _ ht1)
      (s0.acceptTrade (chatRounds s0.chatTrade s1.chatTrade e0 e1 0 NUM_CHAT_ROUNDS []) t0 t1)
      (s1.acceptTrade (chatRounds s0.chatTrade s1.chatTrade e0 e1 0 NUM_CHAT_ROUNDS []) t1 t0)
    split at h
    · -- early Ok return: a side cannot duel; the trade outcome is the result
      simp only [Except.ok.injEq] at h
      have hh0 := congrArg Prod.fst h
      have hh1 := congrArg Prod.snd h
      simp only at hh0 hh1
      rw [hh0] at hstar hcoin
      rw [hh1] at hstar hcoin
      refine ⟨hstar, hcoin, none, none, fun k => ?_⟩
      have hk := hcards k
      rw [hh0, hh1] at hk
      simpa [cardHit] using hk
    · -- bet, duel agreement, settlement
      split at h
      · rename_i sk0 y0 sk1 y1 hb0 hb1
        obtain ⟨hb0s, hb0c, hb0k⟩ :=
          split_stake_sums _ _ _ (retryBet_ok _ _ _ _ _ _ hb0)
        obtain ⟨hb1s, hb1c, hb1k⟩ :=
          split_stake_sums _ _ _ (retryBet_ok _ _ _ _ _ _ hb1)
        split at h
        · simp at h
        · rename_i cards z0 z1 hd
          obtain ⟨oc0, oc1⟩ := cards
          obtain ⟨hz0s, hz0c, hz1s, hz1c, -, d0, d1, hzk0, hzk1⟩ :=
            retryDuel_ok _ _ _ _ _ _ _ _ _ _ hd
          obtain ⟨hss, hsc, hsk0, hsk1⟩ := settle_sums (oc0, oc1) sk0 sk1 z0 z1
          simp only [Except.ok.injEq] at h
          have hh0 := congrArg Prod.fst h
          have hh1 := congrArg Prod.snd h
          simp only at hh0 hh1
          rw [hh0] at hss hsc
          rw [hh1] at hss hsc
          refine ⟨by omega, by omega, d0, d1, fun k => ?_⟩
          have k1 := hcards k
          have k2 := hb0k k
          have k3 := hb1k k
          have k4 := hzk0 k
          have k5 := hzk1 k
          have k6 := hsk0 k
          have k7 := hsk1 k
          rw [hh0] at k6
          rw [hh1] at k7
          omega
      · simp at h
  · simp at h

theorem duel_conservation_witness :
    (⟨3, 0, 0, 0, 0⟩ : Inventory).star + (⟨3, 0, 0, 0, 0⟩ : Inventory).star =
      (⟨3, 0, 1, 0, 0⟩ : Inventory).star + (⟨3, 0, 1, 0, 0⟩ : Inventory).star ∧
    (⟨3, 0, 0, 0, 0⟩ : Inventory).coin + (⟨3, 0, 0, 0, 0⟩ : Inventory).coin =
      (⟨3, 0, 1, 0, 0⟩ : Inventory).coin + (⟨3, 0, 1, 0, 0⟩ : Inventory).coin ∧
    ∃ d0 d1 : Option Card, ∀ k : Card,
      countCard k ⟨3, 0, 0, 0, 0⟩ + countCard k ⟨3, 0, 0, 0, 0⟩ +
        cardHit k d0 + cardHit k d1 =
        countCard k ⟨3, 0, 1, 0, 0⟩ + countCard k ⟨3, 0, 1, 0, 0⟩ :=
  duel_conservation rockScript rockScript 0 1 ⟨3, 0, 1, 0, 0⟩ ⟨3, 0, 1, 0, 0⟩
    ⟨3, 0, 0, 0, 0⟩ ⟨3, 0, 0, 0, 0⟩ rfl
